import Mathlib

/-!
# A shallow embedding of the ml-options-screener core

This file embeds, in Lean 4, the parts of the `ml-options-screener`
repository that its specification makes checkable claims about:

* `option_greeks.py` — the vectorized Black-Scholes Greeks engine
  (`OptionGreeks.calculate_greeks_vectorized`), in particular its
  degenerate-input branch and the pandas `DataFrame` constructor it uses;
* `option_screener.py` and `screener/option_screener.py` — the
  per-contract metrics block in `process_single_date`, the predicate
  conjunction, diagnostics and sort in `screen_options`;
* `screener/scripts/generate_labels.py` — `calculate_outcomes`,
  `move_to_archive`, `process_and_archive_raw_data` and the
  configuration check at the head of `run_labeling_pipeline`.

Prices and other Python floats are modelled as rationals (`ℚ`), calendar
dates and day counts as integers (days since an epoch), pandas data
frames as Lean lists of row structures, and the S3 object store as an
association list from keys to stored frames.  Collaborator behaviour
(network fetches, storage failures) is passed in explicitly as oracle
data, so that the `try/except` structure of the Python code becomes
explicit case analysis.
-/

/-! ## Greeks engine (`option_greeks.py`) -/

/-- One row of the Greeks result frame: the five columns
`delta, gamma, theta, vega, rho` produced by
`OptionGreeks.calculate_greeks_vectorized`. -/
structure GreeksRow where
  delta : ℚ
  gamma : ℚ
  theta : ℚ
  vega : ℚ
  rho : ℚ
deriving Repr, DecidableEq

/-- Errors raised by the pandas layer that the embedded code can hit. -/
inductive PandasError where
  | valueErrorAllScalarsNoIndex
deriving Repr, DecidableEq

/-- Models the call `pd.DataFrame({'delta': 0, 'gamma': 0, 'theta': 0,
'vega': 0, 'rho': 0})` on line 27 of `option_greeks.py`.  In pandas, a
`DataFrame` built from a dict whose values are all scalars, with no
`index=` argument, raises
`ValueError: If using all scalar values, you must pass an index`;
this constructor call therefore raises rather than producing a frame. -/
def pdDataFrameAllScalarsNoIndex : Except PandasError (List GreeksRow) :=
  Except.error PandasError.valueErrorAllScalarsNoIndex

/-- `OptionGreeks.calculate_greeks_vectorized(S, K, T, r, sigma)` from
`option_greeks.py`.  The guard is the literal edge-case test
`if T <= 0 or np.any(sigma <= 0)`; in that case the code executes the
all-scalar `pd.DataFrame` constructor modelled by
`pdDataFrameAllScalarsNoIndex`.  Otherwise it evaluates the Black-Scholes
formulas; that branch involves `log`, `exp` and the normal CDF and is not
needed by any claim, so it is abstracted as the parameter
`blackScholesBranch` (one `GreeksRow` per strike). -/
def calculate_greeks_vectorized
    (blackScholesBranch : ℚ → List ℚ → ℚ → ℚ → List ℚ → List GreeksRow)
    (S : ℚ) (K : List ℚ) (T : ℚ) (r : ℚ) (sigma : List ℚ) :
    Except PandasError (List GreeksRow) :=
  if T ≤ 0 ∨ sigma.any (fun s => decide (s ≤ 0)) then
    pdDataFrameAllScalarsNoIndex
  else
    Except.ok (blackScholesBranch S K T r sigma)

/-! ## Metrics calculator (`process_single_date`, both screener files) -/

/-- The derived-metrics columns computed for one contract row in
`OptionScreener.process_single_date` (identical in
`option_screener.py` lines 151–187 and
`screener/option_screener.py` lines 57–91). -/
structure MetricsRow where
  days_to_expiry : Int
  premium_return : ℚ
  annualized_return : ℚ
  out_of_the_money : ℚ
  max_gain : ℚ
  max_loss : ℚ
  break_even : ℚ
  risk_reward_ratio : ℚ
  return_per_day : ℚ
deriving Repr, DecidableEq

/-- `max_loss.replace(0, 1)`: the pandas `Series.replace` call substitutes
`1` for every element exactly equal to `0` and leaves all other elements
(including negative ones) unchanged. -/
def loss_adj (max_loss : ℚ) : ℚ :=
  if max_loss = 0 then 1 else max_loss

/-- The element-wise metrics block of `process_single_date`, for one
contract with last price `premium`, strike `strike`, shared spot price
`S` and raw `days_to_expiry` (the code first forms
`dte_adj = max(days_to_expiry, 1)`). -/
def process_single_date_metrics (S premium strike : ℚ) (days_to_expiry : Int) :
    MetricsRow :=
  let dte_adj : Int := max days_to_expiry 1
  let premium_return := premium / S * 100
  let annualized_return := premium_return * (365 / (dte_adj : ℚ))
  let out_of_the_money := (strike - S) / S * 100
  let max_gain := premium * 100
  let max_loss := (S - premium) * 100
  let break_even := S - premium
  let risk_reward_ratio := max_gain / loss_adj max_loss
  let return_per_day := premium_return / (dte_adj : ℚ)
  { days_to_expiry := days_to_expiry
    premium_return := premium_return
    annualized_return := annualized_return
    out_of_the_money := out_of_the_money
    max_gain := max_gain
    max_loss := max_loss
    break_even := break_even
    risk_reward_ratio := risk_reward_ratio
    return_per_day := return_per_day }

/-! ## Screening filter (`screen_options`, both screener files) -/

/-- The fields of `ScreenerCriteria` (`models.py`) that the
`screen_options` query string reads. -/
structure ScreenerCriteria where
  min_volume : ℚ
  min_open_interest : ℚ
  min_premium : ℚ
  min_delta : ℚ
  max_delta : ℚ
  min_vega : ℚ
  max_vega : ℚ
  min_implied_volatility : ℚ
  max_implied_volatility : ℚ
  min_pe_ratio : ℚ
  max_pe_ratio : ℚ
  min_stock_price : ℚ
  max_stock_price : ℚ
deriving Repr, DecidableEq

/-- The columns of the combined contract table that the `screen_options`
query string and final sort read. -/
structure OptionRow where
  strike : ℚ
  stock_price : ℚ
  volume : ℚ
  premium : ℚ
  delta : ℚ
  vega : ℚ
  pe_ratio : ℚ
  open_interest : ℚ
  implied_volatility : ℚ
  premium_return : ℚ
  days_to_expiry : Int
deriving Repr, DecidableEq

/-- pandas `Series.between(lo, hi)`: inclusive on both ends. -/
def between (lo hi x : ℚ) : Bool :=
  decide (lo ≤ x) && decide (x ≤ hi)

/-- The PE conjunct of the query string:
`(pe_ratio == 0 or pe_ratio.between(@c.min_pe_ratio, @c.max_pe_ratio))`. -/
def pePasses (c : ScreenerCriteria) (r : OptionRow) : Bool :=
  decide (r.pe_ratio = 0) || between c.min_pe_ratio c.max_pe_ratio r.pe_ratio

/-- The full predicate conjunction of the `df.query(query_str)` call in
`screen_options` (identical query string in both screener files). -/
def rowPassesQuery (c : ScreenerCriteria) (r : OptionRow) : Bool :=
  decide (r.strike ≥ r.stock_price) &&
  decide (r.volume ≥ c.min_volume) &&
  decide (r.premium ≥ c.min_premium) &&
  between c.min_delta c.max_delta r.delta &&
  between c.min_vega c.max_vega r.vega &&
  pePasses c r &&
  between c.min_stock_price c.max_stock_price r.stock_price &&
  decide (r.open_interest ≥ c.min_open_interest) &&
  between c.min_implied_volatility c.max_implied_volatility r.implied_volatility

/-- `filtered = df.query(query_str)`: the rows of `df` satisfying the
predicate conjunction, in their original order. -/
def queryFilter (c : ScreenerCriteria) (df : List OptionRow) : List OptionRow :=
  df.filter (rowPassesQuery c)

/-- The sort order of
`sort_values(['premium_return', 'days_to_expiry'], ascending=[False, True])`:
`premium_return` descending, then `days_to_expiry` ascending. -/
def sortLE (a b : OptionRow) : Prop :=
  b.premium_return < a.premium_return ∨
    (a.premium_return = b.premium_return ∧ a.days_to_expiry ≤ b.days_to_expiry)

instance : DecidableRel sortLE := fun a b => by
  unfold sortLE; infer_instance

instance : IsTotal OptionRow sortLE where
  total a b := by
    rcases lt_trichotomy a.premium_return b.premium_return with h | h | h
    · exact Or.inr (Or.inl h)
    · rcases le_total a.days_to_expiry b.days_to_expiry with h' | h'
      · exact Or.inl (Or.inr ⟨h, h'⟩)
      · exact Or.inr (Or.inr ⟨h.symm, h'⟩)
    · exact Or.inl (Or.inl h)

instance : IsTrans OptionRow sortLE where
  trans a b c hab hbc := by
    rcases hab with h1 | ⟨h1, h1'⟩ <;> rcases hbc with h2 | ⟨h2, h2'⟩
    · exact Or.inl (h2.trans h1)
    · exact Or.inl (h2 ▸ h1)
    · exact Or.inl (h1 ▸ h2)
    · exact Or.inr ⟨h1.trans h2, h1'.trans h2'⟩

/-- `filtered[self.final_col_order].sort_values(['premium_return',
'days_to_expiry'], ascending=[False, True])`: a sort of the filtered rows
by `sortLE` (only row order matters to the claims; the column projection
keeps every modelled field). -/
def sort_values_pr_dte (l : List OptionRow) : List OptionRow :=
  List.insertionSort sortLE l

/-- The per-predicate pass counts printed by the `filtered.empty and not
df.empty` diagnostics block of `screener/option_screener.py`
(lines 202–207): one labelled count per `print` statement — volume,
premium and delta only.  Labels stand for the printed predicate names. -/
def filter_diagnostics_services (c : ScreenerCriteria) (df : List OptionRow) :
    List (String × Nat) :=
  [("volume", (df.filter (fun r => decide (r.volume ≥ c.min_volume))).length),
   ("premium", (df.filter (fun r => decide (r.premium ≥ c.min_premium))).length),
   ("delta", (df.filter (fun r => between c.min_delta c.max_delta r.delta)).length)]

/-- The per-predicate pass counts printed by the diagnostics block of the
root-level `option_screener.py` (lines 281–287): volume, premium, delta
and the PE clause `(pe_ratio == 0) | pe_ratio.between(min_pe, max_pe)`. -/
def filter_diagnostics_legacy (c : ScreenerCriteria) (df : List OptionRow) :
    List (String × Nat) :=
  [("volume", (df.filter (fun r => decide (r.volume ≥ c.min_volume))).length),
   ("premium", (df.filter (fun r => decide (r.premium ≥ c.min_premium))).length),
   ("delta", (df.filter (fun r => between c.min_delta c.max_delta r.delta)).length),
   ("pe_ratio", (df.filter (pePasses c)).length)]

/-- The behaviour of the market-data collaborators during one
`screen_options` run, passed in as data:
`metadata` is the outcome of `get_stock_metadata` (`Except.error` models
the call raising, `Except.ok` the returned ticker → info map, kept here
as the list of tickers that obtained metadata);
`chain` is the per-ticker result of `get_option_chain`, which catches
all of its own exceptions and returns `None` on any failure;
`queryOk` is whether the `df.query(query_str)` call succeeds (its
exception is caught and turned into an empty result). -/
structure ScreenOracle where
  metadata : Except Unit (List String)
  chain : String → Option (List OptionRow)
  queryOk : Bool

/-- The per-ticker chain results collected by the thread pool in
`screen_options`: one future per configured stock that appears in the
metadata map, keeping only non-`None` results. -/
def chainResults (stocks : List String) (o : ScreenOracle) (tickers : List String) :
    List (List OptionRow) :=
  (stocks.filter (fun t => tickers.contains t)).filterMap o.chain

/-- The body of `OptionScreener.screen_options`
(`screener/option_screener.py` lines 155–219) as an exception-aware
computation: a raising `get_stock_metadata` propagates to the outer
handler; every later failure is caught locally and already yields an
empty frame.  Returns the emitted diagnostics lines and the result. -/
def screen_options_body (stocks : List String) (c : ScreenerCriteria)
    (o : ScreenOracle) : Except Unit (List (String × Nat) × List OptionRow) :=
  match o.metadata with
  | Except.error e => Except.error e
  | Except.ok tickers =>
    let results := chainResults stocks o tickers
    if results.isEmpty then
      Except.ok ([], [])
    else
      let df := results.flatten
      if !o.queryOk then
        Except.ok ([], [])
      else
        let filtered := queryFilter c df
        let diags := if filtered.isEmpty && !df.isEmpty then
          filter_diagnostics_services c df else []
        if filtered.isEmpty then
          Except.ok (diags, [])
        else
          Except.ok (diags, sort_values_pr_dte filtered)

/-- `OptionScreener.screen_options` with its outer `try/except`, which
catches any propagated exception and returns `pd.DataFrame()`. -/
def screen_options (stocks : List String) (c : ScreenerCriteria)
    (o : ScreenOracle) : List (String × Nat) × List OptionRow :=
  match screen_options_body stocks c o with
  | Except.ok out => out
  | Except.error _ => ([], [])

/-! ## Labeling pipeline (`screener/scripts/generate_labels.py`) -/

/-- The columns of one expired, unlabeled contract row that
`calculate_outcomes` reads.  Dates are days since an epoch. -/
structure LabelInputRow where
  final_price : ℚ
  strike : ℚ
  premium : ℚ
  stock_price : ℚ
  expiration_date : Int
  snapshot_date : Int
deriving Repr, DecidableEq

/-- The columns appended by `calculate_outcomes`. -/
structure OutcomeRow where
  assigned : Bool
  realized_value : ℚ
  realized_return_pct : ℚ
  target_profitable : Bool
  days_held : Int
  realized_annual_return : ℚ
  target_high_quality : Bool
deriving Repr, DecidableEq

/-- `calculate_outcomes` (`generate_labels.py` lines 169–191) for one
row.  Note the `days_held` computation: the raw day difference followed
by `.replace(0, 1)`, which substitutes `1` only for a difference exactly
equal to `0`. -/
def calculate_outcomes (r : LabelInputRow) : OutcomeRow :=
  let assigned := decide (r.final_price > r.strike)
  let realized_value := (if assigned then r.strike else r.final_price) + r.premium
  let realized_return_pct := (realized_value - r.stock_price) / r.stock_price
  let target_profitable := decide (realized_return_pct > 0)
  let raw_days := r.expiration_date - r.snapshot_date
  let days_held := if raw_days = 0 then 1 else raw_days
  let realized_annual_return := realized_return_pct * (365 / (days_held : ℚ))
  let target_high_quality := decide (realized_annual_return > 15 / 100)
  { assigned := assigned
    realized_value := realized_value
    realized_return_pct := realized_return_pct
    target_profitable := target_profitable
    days_held := days_held
    realized_annual_return := realized_annual_return
    target_high_quality := target_high_quality }

/-- How one invocation of `run_labeling_pipeline` (a script entry point)
terminates.  A plain `return` from the function lets the interpreter
exit normally, so the operating-system exit code is `0`; an uncaught
exception would exit with code `1`. -/
inductive RunOutcome where
  | earlyReturn (logMessage : String)
  | completed
  | uncaughtException
deriving Repr, DecidableEq

/-- The process exit code produced by each way `run_labeling_pipeline`
can terminate. -/
def exitCode : RunOutcome → Nat
  | RunOutcome.earlyReturn _ => 0
  | RunOutcome.completed => 0
  | RunOutcome.uncaughtException => 1

/-- The configuration check at the head of `run_labeling_pipeline`
(`generate_labels.py` lines 195–198): `os.getenv('S3_BUCKET_NAME')`
yields `None` when unset (and Python treats `None` and the empty string
as falsy), in which case the code logs
`"S3_BUCKET_NAME not set in .env"` and returns.  `none` models an unset
variable.  When the bucket is present the pipeline proceeds; the rest of
the run is summarised by the `rest` argument. -/
def run_labeling_pipeline (bucket : Option String) (rest : String → RunOutcome) :
    RunOutcome :=
  match bucket with
  | none => RunOutcome.earlyReturn "S3_BUCKET_NAME not set in .env"
  | some b =>
    if b = "" then RunOutcome.earlyReturn "S3_BUCKET_NAME not set in .env"
    else rest b

/-! ## Object storage and archival (`generate_labels.py`) -/

/-- An S3 object key, as its character sequence. -/
abbrev Key := List Char

/-- Worker for `replaceAll`, structurally recursive on a fuel bound.
Each step either emits one input character or consumes a whole
occurrence of the pattern, so any `fuel ≥ s.length` computes the full
replacement. -/
def replaceAllFuel (pat repl : List Char) : Nat → List Char → List Char
  | 0, s => s
  | _ + 1, [] => []
  | fuel + 1, c :: rest =>
    if pat.isPrefixOf (c :: rest) && !pat.isEmpty then
      repl ++ replaceAllFuel pat repl fuel (rest.drop (pat.length - 1))
    else
      c :: replaceAllFuel pat repl fuel rest

/-- Python `str.replace(pat, repl)` for a non-empty pattern: every
(left-to-right, non-overlapping) occurrence of `pat` is replaced by
`repl`. -/
def replaceAll (pat repl s : List Char) : List Char :=
  replaceAllFuel pat repl s.length s

/-- Whether `pat` occurs as a contiguous subsequence of `s`. -/
def occursIn (pat s : List Char) : Bool :=
  (List.range (s.length + 1)).any (fun i => pat.isPrefixOf (s.drop i))

/-- One row of a persisted raw snapshot, reduced to the column the
archival decision reads. -/
structure RawRow where
  expiration_date : Int
deriving Repr, DecidableEq

/-- The S3 bucket contents: an association list from keys to stored
snapshot frames (keys are unique in a well-formed bucket). -/
abbrev S3State := List (Key × List RawRow)

/-- `list_objects_v2(Bucket=…, Prefix=pfx)`: the keys currently in the
bucket that start with `pfx`, in listing order. -/
def list_objects_v2 (st : S3State) (pfx : Key) : List Key :=
  (st.map Prod.fst).filter (fun k => pfx.isPrefixOf k)

/-- `get_object(Bucket=…, Key=k)`: the stored frame, when present. -/
def get_object (st : S3State) (k : Key) : Option (List RawRow) :=
  (st.find? (fun p => p.1 == k)).map Prod.snd

/-- Installing a value at key `k` (used by `copy_object`'s destination):
any existing object at `k` is overwritten. -/
def put_object (st : S3State) (k : Key) (v : List RawRow) : S3State :=
  st.filter (fun p => !(p.1 == k)) ++ [(k, v)]

/-- `delete_object(Bucket=…, Key=k)`. -/
def delete_object (st : S3State) (k : Key) : S3State :=
  st.filter (fun p => !(p.1 == k))

/-- The storage-failure behaviour of one labeling run, passed in as
data: `copy_ok key` says whether the `copy_object` call that archives
`key` succeeds (a failing call raises, which `move_to_archive` catches). -/
structure StorageOracle where
  copy_ok : Key → Bool

/-- The literal strings of `move_to_archive`. -/
def rawPfx : Key := "raw_data/".toList

/-- The replacement string `'raw_data/archive/'`. -/
def archPfx : Key := "raw_data/archive/".toList

/-- The archive-namespace marker `'archive/'` used by the
`'archive/' not in obj['Key']` test. -/
def archSeg : Key := "archive/".toList

/-- The suffix test `obj['Key'].endswith('.parquet')`. -/
def parquetSfx : Key := ".parquet".toList

/-- The archive key computed by
`new_key = key.replace('raw_data/', 'raw_data/archive/')`. -/
def archiveKey (key : Key) : Key :=
  replaceAll rawPfx archPfx key

/-- `move_to_archive(s3_client, bucket, key)` (`generate_labels.py`
lines 24–39).  Inside one `try` block the code first copies the object
to `new_key` and then deletes the original; any exception (modelled
here: the copy call failing, or the source object being absent so the
copy raises `NoSuchKey`) is caught and logged, leaving the remaining
statements unexecuted. -/
def move_to_archive (oracle : StorageOracle) (st : S3State) (key : Key) :
    S3State :=
  let new_key := archiveKey key
  match get_object st key with
  | none => st
  | some v =>
    if oracle.copy_ok key then
      delete_object (put_object st new_key v) key
    else
      st

/-- The file list built by `process_and_archive_raw_data`
(lines 93–94): keys under `raw_data/` that end with `.parquet` and do
not contain `archive/`. -/
def rawFiles (st : S3State) : List Key :=
  (list_objects_v2 st rawPfx).filter
    (fun k => parquetSfx.isSuffixOf k && !occursIn archSeg k)

/-- `df['expiration_date'].max()`: `none` models the `NaT` produced for
an empty frame (every comparison against `NaT` is false, so an empty
frame is never archived). -/
def maxExpiry (df : List RawRow) : Option Int :=
  (df.map RawRow.expiration_date).max?

/-- The archival test `max_expiry < today` of
`process_and_archive_raw_data`: `false` when `max_expiry` is the `NaT`
of an empty frame (every pandas comparison against `NaT` is false). -/
def archiveDecision (now : Int) (df : List RawRow) : Bool :=
  match maxExpiry df with
  | none => false
  | some m => decide (m < now)

/-- The per-file body of the loop in `process_and_archive_raw_data`
(lines 98–115): read the file from the live bucket (a failing read is
caught and skipped), always append its rows to the in-memory batch, and
move the file to the archive namespace exactly when its largest
expiration date is strictly before `now`. -/
def processFileStep (oracle : StorageOracle) (now : Int)
    (acc : List RawRow × S3State) (key : Key) : List RawRow × S3State :=
  match get_object acc.2 key with
  | none => acc
  | some df =>
    if archiveDecision now df then
      (acc.1 ++ df, move_to_archive oracle acc.2 key)
    else
      (acc.1 ++ df, acc.2)

/-- `process_and_archive_raw_data(bucket_name)` (lines 77–120): list the
active raw snapshot files once, then fold the per-file body over them,
returning the concatenated scan output and the final bucket state. -/
def process_and_archive_raw_data (oracle : StorageOracle) (now : Int)
    (st : S3State) : List RawRow × S3State :=
  (rawFiles st).foldl (processFileStep oracle now) ([], st)

/-! ## Concrete fixtures for witnesses and counterexamples -/

/-- The criteria bounds of `config.example.py` (the checked-in example
configuration). -/
def exampleCriteria : ScreenerCriteria where
  min_volume := 100
  min_open_interest := 100
  min_premium := 3 / 10
  min_delta := 1 / 5
  max_delta := 1 / 2
  min_vega := -1
  max_vega := 1 / 2
  min_implied_volatility := 3 / 10
  max_implied_volatility := 1
  min_pe_ratio := 8
  max_pe_ratio := 50
  min_stock_price := 10
  max_stock_price := 1000

/-- A contract row on an ETF-style underlying: `pe_ratio = 0`. -/
def exampleRowETF : OptionRow where
  strike := 100
  stock_price := 95
  volume := 500
  premium := 2
  delta := 3 / 10
  vega := 1 / 10
  pe_ratio := 0
  open_interest := 300
  implied_volatility := 2 / 5
  premium_return := 2
  days_to_expiry := 7

/-- A contract row whose underlying has `pe_ratio = 5`, below the
example `min_pe_ratio = 8`. -/
def exampleRowLowPE : OptionRow where
  strike := 100
  stock_price := 95
  volume := 500
  premium := 2
  delta := 3 / 10
  vega := 1 / 10
  pe_ratio := 5
  open_interest := 300
  implied_volatility := 2 / 5
  premium_return := 2
  days_to_expiry := 7

/-- A contract row that fails the volume predicate (volume 0), used to
drive the empty-filter diagnostics path. -/
def exampleRowNoVolume : OptionRow where
  strike := 100
  stock_price := 95
  volume := 0
  premium := 2
  delta := 3 / 10
  vega := 1 / 10
  pe_ratio := 20
  open_interest := 300
  implied_volatility := 2 / 5
  premium_return := 2
  days_to_expiry := 7

/-- A collaborator behaviour in which metadata succeeds for ticker
`XYZ`, whose chain holds one row that fails the volume predicate, and
the query call succeeds. -/
def exampleOracle : ScreenOracle where
  metadata := Except.ok ["XYZ"]
  chain := fun t => if t = "XYZ" then some [exampleRowNoVolume] else none
  queryOk := true

/-- A collaborator behaviour in which `get_stock_metadata` raises. -/
def exampleErrOracle : ScreenOracle where
  metadata := Except.error ()
  chain := fun _ => none
  queryOk := true

/-- A raw snapshot key written by the screener. -/
def exampleKeyA : Key := "raw_data/2024-01-01.parquet".toList

/-- A second raw snapshot key. -/
def exampleKeyB : Key := "raw_data/2024-02-01.parquet".toList

/-- A bucket holding one fully expired snapshot (both rows expire before
day 100) and one still-active snapshot. -/
def exampleState : S3State :=
  [(exampleKeyA, [⟨50⟩, ⟨60⟩]), (exampleKeyB, [⟨50⟩, ⟨150⟩])]

/-- A storage behaviour in which every copy succeeds. -/
def exampleStorageOracle : StorageOracle where
  copy_ok := fun _ => true

/-- A storage behaviour in which every copy raises. -/
def exampleFailStorageOracle : StorageOracle where
  copy_ok := fun _ => false

/-- Well-formedness of one active raw snapshot key: it lies under the
`raw_data/` namespace, is not already in the archive namespace, and the
namespace marker occurs nowhere else in it (true of every key the
screener writes, which are `raw_data/<date>.parquet`). -/
def goodKey (k : Key) : Prop :=
  rawPfx.isPrefixOf k = true ∧ occursIn archSeg k = false ∧
    occursIn rawPfx (k.drop rawPfx.length) = false


/-! ## Supporting lemmas: pattern occurrence and `replaceAll` -/

theorem occursIn_true_of_isPrefixOf {pat s : List Char} (i : Nat)
    (hi : i ≤ s.length) (h : pat.isPrefixOf (s.drop i) = true) :
    occursIn pat s = true := by
  unfold occursIn
  rw [List.any_eq_true]
  exact ⟨i, List.mem_range.2 (by omega), h⟩

theorem isPrefixOf_eq_false_of_occursIn_false {pat s : List Char}
    (h : occursIn pat s = false) : pat.isPrefixOf s = false := by
  by_contra hne
  rw [occursIn_true_of_isPrefixOf 0 (Nat.zero_le _)
    (by simpa using eq_true_of_ne_false hne)] at h
  exact Bool.false_ne_true h.symm

theorem occursIn_tail_eq_false {pat : List Char} {c : Char} {rest : List Char}
    (h : occursIn pat (c :: rest) = false) : occursIn pat rest = false := by
  by_contra hne
  replace hne := eq_true_of_ne_false hne
  unfold occursIn at hne
  rw [List.any_eq_true] at hne
  obtain ⟨i, hi, hpre⟩ := hne
  rw [occursIn_true_of_isPrefixOf (i + 1)
    (by simpa using Nat.lt_succ_iff.mp (List.mem_range.1 hi)) hpre] at h
  exact Bool.false_ne_true h.symm

theorem replaceAllFuel_of_occursIn_false {pat repl : List Char} :
    ∀ (fuel : Nat) (s : List Char), s.length ≤ fuel →
      occursIn pat s = false → replaceAllFuel pat repl fuel s = s := by
  intro fuel
  induction fuel with
  | zero => intro s _ _; rfl
  | succ n ih =>
    intro s hlen hocc
    cases s with
    | nil => rfl
    | cons c rest =>
      have hhead := isPrefixOf_eq_false_of_occursIn_false hocc
      have hlen' : rest.length ≤ n := by
        simp only [List.length_cons] at hlen; omega
      simp only [replaceAllFuel, hhead, Bool.false_and, if_neg Bool.false_ne_true]
      rw [ih rest hlen' (occursIn_tail_eq_false hocc)]

theorem replaceAll_append_of_occursIn_false {pat repl s : List Char}
    (hne : pat ≠ []) (h : occursIn pat s = false) :
    replaceAll pat repl (pat ++ s) = repl ++ s := by
  obtain ⟨p, pt, rfl⟩ : ∃ p pt, pat = p :: pt := by
    cases pat with
    | nil => exact absurd rfl hne
    | cons p pt => exact ⟨p, pt, rfl⟩
  unfold replaceAll
  have hlen : ((p :: pt) ++ s).length = (pt.length + s.length) + 1 := by
    simp only [List.length_append, List.length_cons]; omega
  rw [hlen]
  show replaceAllFuel (p :: pt) repl (pt.length + s.length + 1) (p :: (pt ++ s)) = _
  have hg : (p :: pt).isPrefixOf (p :: (pt ++ s)) = true := by
    rw [List.isPrefixOf_iff_prefix]
    exact ⟨s, rfl⟩
  simp only [replaceAllFuel, hg, List.isEmpty_cons, Bool.not_false, Bool.and_true,
    if_true]
  have hdrop : (pt ++ s).drop ((p :: pt).length - 1) = s := by
    simp only [List.length_cons, Nat.add_sub_cancel]
    exact List.drop_left pt s
  rw [hdrop, replaceAllFuel_of_occursIn_false _ s (by omega) h]

/-! ## Supporting lemmas: well-formed raw keys and the archive key -/

theorem goodKey_eq_append {k : Key} (hk : goodKey k) :
    rawPfx ++ k.drop rawPfx.length = k := by
  have := hk.1
  rw [List.isPrefixOf_iff_prefix] at this
  exact List.prefix_iff_eq_append.1 this

theorem archiveKey_of_goodKey {k : Key} (hk : goodKey k) :
    archiveKey k = archPfx ++ k.drop rawPfx.length := by
  unfold archiveKey
  conv_lhs => rw [← goodKey_eq_append hk]
  exact replaceAll_append_of_occursIn_false (by decide) hk.2.2

theorem occursIn_archSeg_archiveKey {k : Key} (hk : goodKey k) :
    occursIn archSeg (archiveKey k) = true := by
  rw [archiveKey_of_goodKey hk]
  refine occursIn_true_of_isPrefixOf rawPfx.length ?_ ?_
  · simp [archPfx, rawPfx, List.length_append]
  · have h9 : rawPfx.length ≤ archPfx.length := by decide
    rw [List.drop_append_of_le_length h9]
    have : archPfx.drop rawPfx.length = archSeg := by decide
    rw [this, List.isPrefixOf_iff_prefix]
    exact ⟨_, rfl⟩

theorem archiveKey_ne_goodKey {k k' : Key} (hk : goodKey k) (hk' : goodKey k') :
    archiveKey k ≠ k' := by
  intro h
  have hocc := occursIn_archSeg_archiveKey hk
  rw [h, hk'.2.1] at hocc
  exact Bool.false_ne_true hocc

theorem archiveKey_inj_goodKey {k k' : Key} (hk : goodKey k) (hk' : goodKey k')
    (h : archiveKey k = archiveKey k') : k = k' := by
  rw [archiveKey_of_goodKey hk, archiveKey_of_goodKey hk'] at h
  have htail := List.append_cancel_left h
  rw [← goodKey_eq_append hk, ← goodKey_eq_append hk', htail]

/-! ## Supporting lemmas: the object store -/

theorem get_object_cons (p : Key × List RawRow) (st : S3State) (q : Key) :
    get_object (p :: st) q =
      if p.1 == q then some p.2 else get_object st q := by
  unfold get_object
  rcases h : p.1 == q with _ | _
  · simp [List.find?, h]
  · simp [List.find?, h]

theorem get_object_put_self (st : S3State) (k : Key) (v : List RawRow) :
    get_object (put_object st k v) k = some v := by
  unfold put_object
  induction st with
  | nil => simp [get_object, List.find?]
  | cons p t ih =>
    rcases h : p.1 == k with _ | _
    · simpa [List.filter, h, get_object_cons] using ih
    · simpa [List.filter, h] using ih

theorem get_object_put_ne (st : S3State) (k : Key) (v : List RawRow) (q : Key)
    (h : q ≠ k) : get_object (put_object st k v) q = get_object st q := by
  unfold put_object
  induction st with
  | nil =>
    have hkq : (k == q) = false := beq_eq_false_iff_ne.2 (fun hkq => h hkq.symm)
    simp [get_object, List.find?, hkq]
  | cons p t ih =>
    by_cases hpk : p.1 = k
    · simp only [List.filter_cons, hpk, beq_self_eq_true, Bool.not_true,
        if_neg Bool.false_ne_true]
      rw [ih, get_object_cons]
      have hpq : (p.1 == q) = false :=
        beq_eq_false_iff_ne.2 (by rw [hpk]; exact fun e => h e.symm)
      simp [hpq]
    · have hpk' : (!(p.1 == k)) = true := by simp [hpk]
      simp only [List.filter_cons, hpk']
      rw [if_pos trivial, List.cons_append, get_object_cons, get_object_cons, ih]

theorem get_object_delete_self (st : S3State) (k : Key) :
    get_object (delete_object st k) k = none := by
  unfold delete_object
  induction st with
  | nil => simp [get_object, List.find?]
  | cons p t ih =>
    rcases h : p.1 == k with _ | _
    · simpa [List.filter, h, get_object_cons] using ih
    · simpa [List.filter, h] using ih

theorem get_object_delete_ne (st : S3State) (k : Key) (q : Key) (h : q ≠ k) :
    get_object (delete_object st k) q = get_object st q := by
  unfold delete_object
  induction st with
  | nil => rfl
  | cons p t ih =>
    by_cases hpk : p.1 = k
    · simp only [List.filter_cons, hpk, beq_self_eq_true, Bool.not_true,
        if_neg Bool.false_ne_true]
      rw [ih, get_object_cons]
      have hpq : (p.1 == q) = false :=
        beq_eq_false_iff_ne.2 (by rw [hpk]; exact fun e => h e.symm)
      simp [hpq]
    · have hpk' : (!(p.1 == k)) = true := by simp [hpk]
      simp only [List.filter_cons, hpk']
      rw [if_pos trivial, get_object_cons, get_object_cons, ih]

theorem notMem_keys_of_get_object_none {st : S3State} {q : Key}
    (h : get_object st q = none) : q ∉ st.map Prod.fst := by
  induction st with
  | nil => simp
  | cons p t ih =>
    rw [get_object_cons] at h
    rcases hp : p.1 == q with _ | _
    · rw [hp] at h
      simp only [if_neg Bool.false_ne_true] at h
      simp only [List.map_cons, List.mem_cons]
      rintro (hq | hq)
      · rw [beq_eq_false_iff_ne] at hp; exact hp hq.symm
      · exact ih h hq
    · rw [hp] at h; simp at h

/-! ## Supporting lemmas: `move_to_archive` and the scan fold -/

theorem move_to_archive_self {oracle : StorageOracle} {st : S3State} {k : Key}
    {v : List RawRow} (hv : get_object st k = some v)
    (hok : oracle.copy_ok k = true) (hne : archiveKey k ≠ k) :
    get_object (move_to_archive oracle st k) k = none ∧
      get_object (move_to_archive oracle st k) (archiveKey k) = some v := by
  have h1 : move_to_archive oracle st k =
      delete_object (put_object st (archiveKey k) v) k := by
    simp [move_to_archive, hv, hok]
  rw [h1]
  constructor
  · exact get_object_delete_self _ _
  · rw [get_object_delete_ne _ _ _ hne]
    exact get_object_put_self _ _ _

theorem move_to_archive_other {oracle : StorageOracle} {st : S3State} {k : Key}
    (q : Key) (hq1 : q ≠ k) (hq2 : q ≠ archiveKey k) :
    get_object (move_to_archive oracle st k) q = get_object st q := by
  cases hv : get_object st k with
  | none => simp [move_to_archive, hv]
  | some v =>
    cases hok : oracle.copy_ok k with
    | false => simp [move_to_archive, hv, hok]
    | true =>
      have h1 : move_to_archive oracle st k =
          delete_object (put_object st (archiveKey k) v) k := by
        simp [move_to_archive, hv, hok]
      rw [h1, get_object_delete_ne _ _ _ hq1, get_object_put_ne _ _ _ _ hq2]

theorem maxExpiry_lt_iff {v : List RawRow} (hne : v ≠ []) (x : Int) :
    (∃ m, maxExpiry v = some m ∧ m < x) ↔
      ∀ r ∈ v, r.expiration_date < x := by
  unfold maxExpiry
  constructor
  · rintro ⟨m, hm, hlt⟩ r hr
    have hle : ∀ b ∈ v.map RawRow.expiration_date, b ≤ m :=
      (List.max?_le_iff (fun _ _ _ => max_le_iff) hm).1 le_rfl
    exact lt_of_le_of_lt (hle _ (List.mem_map_of_mem _ hr)) hlt
  · intro hall
    have hmap : v.map RawRow.expiration_date ≠ [] := by
      simpa using hne
    have hsome : (v.map RawRow.expiration_date).max?.isSome := by
      cases hm : v.map RawRow.expiration_date with
      | nil => exact absurd hm hmap
      | cons a t =>
        exact List.isSome_max?_of_mem (List.mem_cons_self a t)
    obtain ⟨m, hm⟩ := Option.isSome_iff_exists.1 hsome
    refine ⟨m, hm, ?_⟩
    have := List.max?_mem (fun a b => max_choice a b) hm
    obtain ⟨r, hr, hrm⟩ := List.mem_map.1 this
    exact hrm ▸ hall r hr

theorem processFileStep_none {oracle : StorageOracle} {now : Int}
    {acc : List RawRow} {st : S3State} {key : Key}
    (hv : get_object st key = none) :
    processFileStep oracle now (acc, st) key = (acc, st) := by
  simp [processFileStep, hv]

theorem processFileStep_keep {oracle : StorageOracle} {now : Int}
    {acc : List RawRow} {st : S3State} {key : Key} {df : List RawRow}
    (hv : get_object st key = some df) (hd : archiveDecision now df = false) :
    processFileStep oracle now (acc, st) key = (acc ++ df, st) := by
  simp [processFileStep, hv, hd]

theorem processFileStep_archive {oracle : StorageOracle} {now : Int}
    {acc : List RawRow} {st : S3State} {key : Key} {df : List RawRow}
    (hv : get_object st key = some df) (hd : archiveDecision now df = true) :
    processFileStep oracle now (acc, st) key =
      (acc ++ df, move_to_archive oracle st key) := by
  simp [processFileStep, hv, hd]

theorem processFileStep_state_other {oracle : StorageOracle} {now : Int}
    {acc : List RawRow} {st : S3State} {key : Key} (q : Key) (hq1 : q ≠ key)
    (hq2 : q ≠ archiveKey key) :
    get_object (processFileStep oracle now (acc, st) key).2 q =
      get_object st q := by
  cases hv : get_object st key with
  | none => rw [processFileStep_none hv]
  | some df =>
    cases hd : archiveDecision now df with
    | false => rw [processFileStep_keep hv hd]
    | true =>
      rw [processFileStep_archive hv hd]
      exact move_to_archive_other q hq1 hq2

/-- State tracking while `process_and_archive_raw_data` folds over the
listed files: a key that is neither one of the remaining files nor an
archive key of one of them keeps its object unchanged. -/
theorem foldFiles_untouched (oracle : StorageOracle) (now : Int) :
    ∀ (fs : List Key) (st : S3State) (acc : List RawRow) (q : Key),
      q ∉ fs → (∀ k ∈ fs, q ≠ archiveKey k) →
      get_object (fs.foldl (processFileStep oracle now) (acc, st)).2 q =
        get_object st q := by
  intro fs
  induction fs with
  | nil => intro st acc q _ _; rfl
  | cons k rest ih =>
    intro st acc q hq hqa
    have hqk : q ≠ k := fun h => hq (h ▸ List.mem_cons_self k rest)
    have hqak : q ≠ archiveKey k := hqa k (List.mem_cons_self k rest)
    rw [List.foldl_cons]
    have hrw : (processFileStep oracle now (acc, st) k) =
        ((processFileStep oracle now (acc, st) k).1,
          (processFileStep oracle now (acc, st) k).2) := rfl
    rw [hrw, ih (processFileStep oracle now (acc, st) k).2
        (processFileStep oracle now (acc, st) k).1 q
        (fun h => hq (List.mem_cons_of_mem _ h))
        (fun k' hk' => hqa k' (List.mem_cons_of_mem _ hk'))]
    exact processFileStep_state_other q hqk hqak

theorem archiveDecision_eq_true_iff (now : Int) (df : List RawRow) :
    archiveDecision now df = true ↔
      ∃ m, maxExpiry df = some m ∧ m < now := by
  unfold archiveDecision
  cases h : maxExpiry df with
  | none => simp
  | some m => simp

/-- State tracking for the files themselves: a well-formed listed file
whose rows are all expired ends up at its archive key and is removed
from its raw key; any other listed file keeps its object. -/
theorem foldFiles_processed (oracle : StorageOracle) (now : Int) :
    ∀ (fs : List Key) (st : S3State) (acc : List RawRow),
      (∀ k ∈ fs, goodKey k) → fs.Nodup →
      (∀ k ∈ fs, oracle.copy_ok k = true) →
      ∀ q v, q ∈ fs → get_object st q = some v →
      (archiveDecision now v = true →
        get_object (fs.foldl (processFileStep oracle now) (acc, st)).2 q =
            none ∧
          get_object (fs.foldl (processFileStep oracle now) (acc, st)).2
            (archiveKey q) = some v) ∧
      (archiveDecision now v = false →
        get_object (fs.foldl (processFileStep oracle now) (acc, st)).2 q =
          some v) := by
  intro fs
  induction fs with
  | nil => intro st acc _ _ _ q v hq; exact absurd hq (List.not_mem_nil q)
  | cons k rest ih =>
    intro st acc hgood hnodup hok q v hq hv
    have hgk : goodKey k := hgood k (List.mem_cons_self k rest)
    have hknr : k ∉ rest := (List.nodup_cons.1 hnodup).1
    have hrest_good : ∀ k' ∈ rest, goodKey k' :=
      fun k' h => hgood k' (List.mem_cons_of_mem _ h)
    rcases List.mem_cons.1 hq with rfl | hqrest
    · -- the head file is the tracked one
      constructor
      · intro hdec
        have hstep := @processFileStep_archive oracle now acc st q v hv hdec
        have hmove := move_to_archive_self hv (hok q (List.mem_cons_self q rest))
          (archiveKey_ne_goodKey hgk hgk)
        rw [List.foldl_cons, hstep]
        constructor
        · rw [foldFiles_untouched oracle now rest _ _ q hknr
            (fun k' hk' => fun h =>
              archiveKey_ne_goodKey (hrest_good k' hk') hgk h.symm)]
          exact hmove.1
        · have hak_notin : archiveKey q ∉ rest := fun h =>
            archiveKey_ne_goodKey hgk (hrest_good _ h) rfl
          rw [foldFiles_untouched oracle now rest _ _ (archiveKey q) hak_notin
            (fun k' hk' => fun h =>
              hknr (archiveKey_inj_goodKey hgk (hrest_good k' hk') h ▸ hk'))]
          exact hmove.2
      · intro hdec
        have hstep := @processFileStep_keep oracle now acc st q v hv hdec
        rw [List.foldl_cons, hstep]
        rw [foldFiles_untouched oracle now rest _ _ q hknr
          (fun k' hk' => fun h =>
            archiveKey_ne_goodKey (hrest_good k' hk') hgk h.symm)]
        exact hv
    · -- the tracked file comes later in the listing
      have hqk : q ≠ k := fun h => hknr (h ▸ hqrest)
      have hq_good : goodKey q := hrest_good q hqrest
      have hqak : q ≠ archiveKey k := fun h =>
        archiveKey_ne_goodKey hgk hq_good h.symm
      have hv1 : get_object (processFileStep oracle now (acc, st) k).2 q =
          some v := by
        rw [processFileStep_state_other q hqk hqak]; exact hv
      have hrw : (processFileStep oracle now (acc, st) k) =
          ((processFileStep oracle now (acc, st) k).1,
            (processFileStep oracle now (acc, st) k).2) := rfl
      rw [List.foldl_cons, hrw]
      exact ih (processFileStep oracle now (acc, st) k).2
        (processFileStep oracle now (acc, st) k).1
        hrest_good (List.nodup_cons.1 hnodup).2
        (fun k' h => hok k' (List.mem_cons_of_mem _ h)) q v hqrest hv1

/-- Output tracking: the scan output is the accumulated rows followed by
the rows of every listed file, read from the starting state. -/
theorem foldFiles_out (oracle : StorageOracle) (now : Int) :
    ∀ (fs : List Key) (st : S3State) (acc : List RawRow),
      (∀ k ∈ fs, goodKey k) → fs.Nodup →
      (fs.foldl (processFileStep oracle now) (acc, st)).1 =
        acc ++ fs.flatMap (fun k => (get_object st k).getD []) := by
  intro fs
  induction fs with
  | nil => intro st acc _ _; simp
  | cons k rest ih =>
    intro st acc hgood hnodup
    have hgk : goodKey k := hgood k (List.mem_cons_self k rest)
    have hknr : k ∉ rest := (List.nodup_cons.1 hnodup).1
    have hrest_good : ∀ k' ∈ rest, goodKey k' :=
      fun k' h => hgood k' (List.mem_cons_of_mem _ h)
    have hrw : (processFileStep oracle now (acc, st) k) =
        ((processFileStep oracle now (acc, st) k).1,
          (processFileStep oracle now (acc, st) k).2) := rfl
    rw [List.foldl_cons, hrw,
      ih (processFileStep oracle now (acc, st) k).2
        (processFileStep oracle now (acc, st) k).1
        hrest_good (List.nodup_cons.1 hnodup).2]
    have hsame : ∀ k' ∈ rest,
        (get_object (processFileStep oracle now (acc, st) k).2 k').getD [] =
          (get_object st k').getD [] := by
      intro k' hk'
      have hk'k : k' ≠ k := fun h => hknr (h ▸ hk')
      have hk'ak : k' ≠ archiveKey k := fun h =>
        archiveKey_ne_goodKey hgk (hrest_good k' hk') h.symm
      rw [processFileStep_state_other k' hk'k hk'ak]
    have hfst : (processFileStep oracle now (acc, st) k).1 =
        acc ++ (get_object st k).getD [] := by
      cases hv : get_object st k with
      | none => rw [processFileStep_none hv]; simp
      | some df =>
        cases hd : archiveDecision now df with
        | false => rw [processFileStep_keep hv hd]; simp
        | true => rw [processFileStep_archive hv hd]; simp
    rw [hfst, List.flatMap_cons, List.append_assoc]
    congr 1
    rw [List.flatMap_def, List.flatMap_def, List.map_congr_left hsame]

/-! ## Supporting lemmas: `screen_options` branch structure -/

theorem screen_options_metadata_error {stocks : List String}
    {c : ScreenerCriteria} {o : ScreenOracle} (e : Unit)
    (hmd : o.metadata = Except.error e) :
    screen_options stocks c o = ([], []) := by
  unfold screen_options screen_options_body
  rw [hmd]

theorem screen_options_body_ok {stocks : List String} {c : ScreenerCriteria}
    {o : ScreenOracle} {tks : List String}
    (hmd : o.metadata = Except.ok tks) :
    screen_options_body stocks c o =
      (if (chainResults stocks o tks).isEmpty then Except.ok ([], [])
       else if !o.queryOk then Except.ok ([], [])
       else if (queryFilter c (chainResults stocks o tks).flatten).isEmpty then
         Except.ok
           ((if (queryFilter c (chainResults stocks o tks).flatten).isEmpty &&
                !(chainResults stocks o tks).flatten.isEmpty then
               filter_diagnostics_services c (chainResults stocks o tks).flatten
             else []), [])
       else
         Except.ok
           ((if (queryFilter c (chainResults stocks o tks).flatten).isEmpty &&
                !(chainResults stocks o tks).flatten.isEmpty then
               filter_diagnostics_services c (chainResults stocks o tks).flatten
             else []),
            sort_values_pr_dte
              (queryFilter c (chainResults stocks o tks).flatten))) := by
  unfold screen_options_body
  rw [hmd]

theorem screen_options_no_chains {stocks : List String} {c : ScreenerCriteria}
    {o : ScreenOracle} {tks : List String}
    (hmd : o.metadata = Except.ok tks)
    (h1 : (chainResults stocks o tks).isEmpty = true) :
    screen_options stocks c o = ([], []) := by
  unfold screen_options
  rw [screen_options_body_ok hmd, if_pos h1]

theorem screen_options_query_fails {stocks : List String}
    {c : ScreenerCriteria} {o : ScreenOracle} {tks : List String}
    (hmd : o.metadata = Except.ok tks)
    (h1 : ¬ (chainResults stocks o tks).isEmpty = true)
    (h2 : o.queryOk = false) :
    screen_options stocks c o = ([], []) := by
  unfold screen_options
  rw [screen_options_body_ok hmd, if_neg h1, if_pos (by simp [h2])]

theorem screen_options_filter_empty {stocks : List String}
    {c : ScreenerCriteria} {o : ScreenOracle} {tks : List String}
    (hmd : o.metadata = Except.ok tks)
    (h1 : ¬ (chainResults stocks o tks).isEmpty = true)
    (h2 : o.queryOk = true)
    (h3 : (queryFilter c (chainResults stocks o tks).flatten).isEmpty = true) :
    screen_options stocks c o =
      ((if !(chainResults stocks o tks).flatten.isEmpty then
          filter_diagnostics_services c (chainResults stocks o tks).flatten
        else []), []) := by
  unfold screen_options
  rw [screen_options_body_ok hmd, if_neg h1, if_neg (by simp [h2]),
    if_pos h3]
  simp [h3]

theorem screen_options_filter_nonempty {stocks : List String}
    {c : ScreenerCriteria} {o : ScreenOracle} {tks : List String}
    (hmd : o.metadata = Except.ok tks)
    (h1 : ¬ (chainResults stocks o tks).isEmpty = true)
    (h2 : o.queryOk = true)
    (h3 : ¬ (queryFilter c (chainResults stocks o tks).flatten).isEmpty = true) :
    screen_options stocks c o =
      ([], sort_values_pr_dte
        (queryFilter c (chainResults stocks o tks).flatten)) := by
  unfold screen_options
  rw [screen_options_body_ok hmd, if_neg h1, if_neg (by simp [h2]),
    if_neg h3]
  simp [Bool.eq_false_iff.2 h3]

/-! ## Supporting lemmas: the output sort order -/

theorem sorted_sort_values (l : List OptionRow) :
    List.Chain' (fun a b => b.premium_return ≤ a.premium_return ∧
        (a.premium_return = b.premium_return →
          a.days_to_expiry ≤ b.days_to_expiry))
      (sort_values_pr_dte l) := by
  have hs : List.Sorted sortLE (sort_values_pr_dte l) :=
    List.sorted_insertionSort sortLE l
  have hc : List.Chain' sortLE (sort_values_pr_dte l) :=
    List.Pairwise.chain' hs
  refine hc.imp ?_
  intro a b hab
  rcases hab with h | ⟨h, h'⟩
  · exact ⟨le_of_lt h, fun he => absurd he (ne_of_gt h)⟩
  · exact ⟨le_of_eq h.symm, fun _ => h'⟩

/-! ## The claims -/

/-- C1: the claim says that for `T ≤ 0` or any `σ ≤ 0`,
`calculate_greeks_vectorized` returns, without raising, one all-zero row
per input strike.  On the code this is false: the edge branch builds
`pd.DataFrame` from an all-scalar dict with no index, which raises
`ValueError`, so the degenerate call raises instead of returning (and
even the intended frame would have had zero rows).  This theorem
evaluates the embedded code on the degenerate inputs: the call yields
the pandas `ValueError`, for every Black-Scholes branch. -/
theorem C1_greeks_degenerate_raises
    (bs : ℚ → List ℚ → ℚ → ℚ → List ℚ → List GreeksRow)
    (S : ℚ) (K : List ℚ) (T r : ℚ) (sigma : List ℚ)
    (h : T ≤ 0 ∨ ∃ s ∈ sigma, s ≤ 0) :
    calculate_greeks_vectorized bs S K T r sigma =
      Except.error PandasError.valueErrorAllScalarsNoIndex := by
  unfold calculate_greeks_vectorized
  rw [if_pos]
  · rfl
  · rcases h with h | ⟨s, hs, hle⟩
    · exact Or.inl h
    · exact Or.inr (List.any_eq_true.2 ⟨s, hs, decide_eq_true hle⟩)

/-- C1 witness: the degenerate call at `S = 100`, `K = [100, 105]`,
`T = 0`, `r = 0.0425`, `σ = [0.2, 0.3]` raises the pandas error. -/
theorem C1_greeks_degenerate_raises_witness :
    calculate_greeks_vectorized (fun _ _ _ _ _ => []) 100 [100, 105] 0
        (17 / 400) [1 / 5, 3 / 10] =
      Except.error PandasError.valueErrorAllScalarsNoIndex :=
  C1_greeks_degenerate_raises (fun _ _ _ _ _ => []) 100 [100, 105] 0
    (17 / 400) [1 / 5, 3 / 10] (Or.inl le_rfl)

/-- C2: a row with `pe_ratio = 0` satisfies the PE predicate whatever
the configured bounds are, and a row with a nonzero `pe_ratio` outside
`[min_pe_ratio, max_pe_ratio]` fails the query conjunction and so never
appears in the filtered output. -/
theorem C2_pe_escape_clause :
    (∀ (c : ScreenerCriteria) (r : OptionRow), r.pe_ratio = 0 →
        pePasses c r = true) ∧
      (∀ (c : ScreenerCriteria) (r : OptionRow) (df : List OptionRow),
        r.pe_ratio ≠ 0 →
        (r.pe_ratio < c.min_pe_ratio ∨ c.max_pe_ratio < r.pe_ratio) →
        r ∉ queryFilter c df) := by
  constructor
  · intro c r h
    simp [pePasses, h]
  · intro c r df hne hout hmem
    rw [queryFilter, List.mem_filter] at hmem
    have hq := hmem.2
    simp only [rowPassesQuery, pePasses, between, Bool.and_eq_true,
      Bool.or_eq_true, decide_eq_true_eq] at hq
    obtain ⟨⟨⟨⟨⟨⟨⟨⟨_, _⟩, _⟩, _⟩, _⟩, hPE⟩, _⟩, _⟩, _⟩ := hq
    rcases hPE with h0 | ⟨hlo, hhi⟩
    · exact hne h0
    · rcases hout with h | h
      · exact absurd hlo (not_le.2 h)
      · exact absurd hhi (not_le.2 h)

/-- C2 witness: under the example configuration (`min_pe_ratio = 8`,
`max_pe_ratio = 50`), the ETF-style row with `pe_ratio = 0` passes the
PE predicate and the `pe_ratio = 5` row is excluded from the filtered
output. -/
theorem C2_pe_escape_clause_witness :
    pePasses exampleCriteria exampleRowETF = true ∧
      exampleRowLowPE ∉ queryFilter exampleCriteria [exampleRowLowPE] :=
  ⟨C2_pe_escape_clause.1 exampleCriteria exampleRowETF rfl,
   C2_pe_escape_clause.2 exampleCriteria exampleRowLowPE [exampleRowLowPE]
     (by norm_num [exampleRowLowPE]) (Or.inl (by norm_num [exampleRowLowPE, exampleCriteria]))⟩

/-- C3 counterexample: the claim says `days_held` always equals
`max(expiration_date − snapshot_date, 1)`, including for a negative raw
difference.  The code computes the raw difference and replaces only an
exact `0` by `1`, so a row whose snapshot date is two days after its
expiration date gets `days_held = −2` while `max(−2, 1) = 1`. -/
theorem C3_days_held_counterexample :
    (calculate_outcomes
        { final_price := 105, strike := 100, premium := 2, stock_price := 95,
          expiration_date := 19721, snapshot_date := 19723 }).days_held = -2 ∧
      max ((19721 : Int) - 19723) 1 = 1 ∧ ((-2 : Int)) ≠ 1 := by
  refine ⟨?_, by decide, by decide⟩
  decide

/-- C3 amended: `days_held` is the raw day difference
`expiration_date − snapshot_date` with an exact `0` replaced by `1`;
whenever the raw difference is non-negative (which holds for every row
the pipeline labels in normal operation, since snapshots are written
before expiry) this coincides with `max(difference, 1)` and is ≥ 1. -/
theorem C3_days_held_amended (r : LabelInputRow) :
    (calculate_outcomes r).days_held =
        (if r.expiration_date - r.snapshot_date = 0 then 1
         else r.expiration_date - r.snapshot_date) ∧
      (0 ≤ r.expiration_date - r.snapshot_date →
        (calculate_outcomes r).days_held =
            max (r.expiration_date - r.snapshot_date) 1 ∧
          1 ≤ (calculate_outcomes r).days_held) := by
  constructor
  · rfl
  · intro hpos
    constructor
    · show (if r.expiration_date - r.snapshot_date = 0 then 1
        else r.expiration_date - r.snapshot_date) = _
      by_cases h : r.expiration_date - r.snapshot_date = 0
      · rw [if_pos h, h]; rfl
      · rw [if_neg h]
        omega
    · show 1 ≤ (if r.expiration_date - r.snapshot_date = 0 then 1
        else r.expiration_date - r.snapshot_date)
      by_cases h : r.expiration_date - r.snapshot_date = 0
      · rw [if_pos h]
      · rw [if_neg h]
        omega

/-- C3 amended witness: the spec's end-to-end example row (snapshot
2024-01-01, expiry 2024-01-08, day numbers 19723 and 19730) gets
`days_held = max(7, 1) = 7 ≥ 1`. -/
theorem C3_days_held_amended_witness :
    (calculate_outcomes
        { final_price := 105, strike := 100, premium := 2, stock_price := 95,
          expiration_date := 19730, snapshot_date := 19723 }).days_held =
        max ((19730 : Int) - 19723) 1 ∧
      1 ≤ (calculate_outcomes
        { final_price := 105, strike := 100, premium := 2, stock_price := 95,
          expiration_date := 19730, snapshot_date := 19723 }).days_held :=
  (C3_days_held_amended
    { final_price := 105, strike := 100, premium := 2, stock_price := 95,
      expiration_date := 19730, snapshot_date := 19723 }).2 (by decide)

/-- C4 counterexample: with `S3_BUCKET_NAME` absent the labeling run
logs and performs a plain early return, whatever the rest of the
pipeline would have done: the outcome is not an uncaught exception and
the process exit code is `0`, contradicting the claimed non-zero exit
signal. -/
theorem C4_missing_bucket_counterexample :
    run_labeling_pipeline none (fun _ => RunOutcome.completed) =
        RunOutcome.earlyReturn "S3_BUCKET_NAME not set in .env" ∧
      exitCode
          (run_labeling_pipeline none (fun _ => RunOutcome.completed)) = 0 ∧
      run_labeling_pipeline none (fun _ => RunOutcome.completed) ≠
        RunOutcome.uncaughtException := by
  refine ⟨rfl, rfl, ?_⟩
  intro h
  exact RunOutcome.noConfusion h

/-- C4 amended: a missing `S3_BUCKET_NAME` makes the run log its own
distinct message (`"S3_BUCKET_NAME not set in .env"`) and return early,
before any storage or labeling work; the run terminates normally with
exit code `0` — it neither raises nor exits non-zero.  With a non-empty
bucket configured, the rest of the pipeline runs. -/
theorem C4_missing_bucket_amended (rest : String → RunOutcome) :
    run_labeling_pipeline none rest =
        RunOutcome.earlyReturn "S3_BUCKET_NAME not set in .env" ∧
      exitCode (run_labeling_pipeline none rest) = 0 ∧
      (∀ b : String, b ≠ "" → run_labeling_pipeline (some b) rest = rest b) := by
  refine ⟨rfl, rfl, ?_⟩
  intro b hb
  show (if b = "" then
      RunOutcome.earlyReturn "S3_BUCKET_NAME not set in .env"
    else rest b) = rest b
  rw [if_neg hb]

/-- C4 amended witness: at the empty environment the run early-returns
with exit code 0; with bucket `"b"` the rest of the pipeline runs. -/
theorem C4_missing_bucket_amended_witness :
    exitCode
        (run_labeling_pipeline none (fun _ => RunOutcome.completed)) = 0 ∧
      run_labeling_pipeline (some "b") (fun _ => RunOutcome.completed) =
        RunOutcome.completed :=
  ⟨(C4_missing_bucket_amended (fun _ => RunOutcome.completed)).2.1,
   (C4_missing_bucket_amended (fun _ => RunOutcome.completed)).2.2 "b"
     (by decide)⟩

/-- C5: `risk_reward_ratio` is `max_gain` divided by `loss_adj max_loss`,
where the divisor equals `max_loss` except that an exact `0` is replaced
by `1`; the divisor is therefore never zero, so the division is always
by a nonzero rational (finite for every row with finite inputs). -/
theorem C5_risk_reward_divisor (S premium strike : ℚ) (dte : Int) :
    (process_single_date_metrics S premium strike dte).risk_reward_ratio =
        (process_single_date_metrics S premium strike dte).max_gain /
          loss_adj (process_single_date_metrics S premium strike dte).max_loss ∧
      loss_adj (process_single_date_metrics S premium strike dte).max_loss ≠ 0 ∧
      ((process_single_date_metrics S premium strike dte).max_loss = 0 →
        loss_adj
          (process_single_date_metrics S premium strike dte).max_loss = 1) ∧
      ((process_single_date_metrics S premium strike dte).max_loss ≠ 0 →
        loss_adj (process_single_date_metrics S premium strike dte).max_loss =
          (process_single_date_metrics S premium strike dte).max_loss) := by
  refine ⟨rfl, ?_, ?_, ?_⟩
  · unfold loss_adj
    by_cases h : (process_single_date_metrics S premium strike dte).max_loss = 0
    · rw [if_pos h]; exact one_ne_zero
    · rw [if_neg h]; exact h
  · intro h
    unfold loss_adj
    rw [if_pos h]
  · intro h
    unfold loss_adj
    rw [if_neg h]

/-- C5 witness: at `S = premium = 5` the raw `max_loss` is exactly `0`
and the divisor becomes `1`, which is nonzero. -/
theorem C5_risk_reward_divisor_witness :
    loss_adj (process_single_date_metrics 5 5 6 7).max_loss = 1 ∧
      loss_adj (process_single_date_metrics 5 5 6 7).max_loss ≠ 0 :=
  ⟨(C5_risk_reward_divisor 5 5 6 7).2.2.1
     (by norm_num [process_single_date_metrics]),
   (C5_risk_reward_divisor 5 5 6 7).2.1⟩

/-- C6: every table returned by `screen_options` is ordered with
`premium_return` non-increasing from row to row and, among consecutive
rows with equal `premium_return`, `days_to_expiry` non-decreasing (the
empty table trivially, any non-empty result by the final
`sort_values`). -/
theorem C6_sort_order (stocks : List String) (c : ScreenerCriteria)
    (o : ScreenOracle) :
    List.Chain' (fun a b => b.premium_return ≤ a.premium_return ∧
        (a.premium_return = b.premium_return →
          a.days_to_expiry ≤ b.days_to_expiry))
      (screen_options stocks c o).2 := by
  cases hmd : o.metadata with
  | error e =>
    rw [screen_options_metadata_error e hmd]
    exact List.chain'_nil
  | ok tks =>
    by_cases h1 : (chainResults stocks o tks).isEmpty = true
    · rw [screen_options_no_chains hmd h1]
      exact List.chain'_nil
    · cases h2 : o.queryOk with
      | false =>
        rw [screen_options_query_fails hmd h1 h2]
        exact List.chain'_nil
      | true =>
        by_cases h3 :
            (queryFilter c (chainResults stocks o tks).flatten).isEmpty = true
        · rw [screen_options_filter_empty hmd h1 h2 h3]
          exact List.chain'_nil
        · rw [screen_options_filter_nonempty hmd h1 h2 h3]
          exact sorted_sort_values _

/-- C7 counterexample: the claim says the empty-filter diagnostics
expose pass counts for volume, premium, delta AND PE.  In the services
screener (`screener/option_screener.py`, the version whose
`screen_options` this file embeds) the diagnostics block prints only
three counts — volume, premium and delta — and no PE count: here a
non-empty one-row table is eliminated by the filter, the diagnostics
fire, and no `pe_ratio` entry is exposed. -/
theorem C7_pe_diagnostic_missing_counterexample :
    (screen_options ["XYZ"] exampleCriteria exampleOracle).1.map Prod.fst =
        ["volume", "premium", "delta"] ∧
      "pe_ratio" ∉
        (screen_options ["XYZ"] exampleCriteria exampleOracle).1.map
          Prod.fst := by
  have h := @screen_options_filter_empty ["XYZ"] exampleCriteria
    exampleOracle ["XYZ"] rfl (by decide) rfl (by decide)
  rw [h]
  refine ⟨?_, ?_⟩ <;> decide

/-- C7 amended: whenever the predicate conjunction eliminates every row
of a non-empty combined table, the run continues (returns the empty
frame rather than halting) and exposes per-predicate pass counts — for
volume, premium and delta in the services screener, and additionally
for the PE clause only in the legacy root-level screener. -/
theorem C7_diagnostics_amended (stocks : List String) (c : ScreenerCriteria)
    (o : ScreenOracle) (tks : List String)
    (hmd : o.metadata = Except.ok tks)
    (h1 : ¬ (chainResults stocks o tks).isEmpty = true)
    (h2 : o.queryOk = true)
    (hdf : ¬ (chainResults stocks o tks).flatten.isEmpty = true)
    (hflt : (queryFilter c (chainResults stocks o tks).flatten).isEmpty =
      true) :
    (screen_options stocks c o).1 =
        filter_diagnostics_services c (chainResults stocks o tks).flatten ∧
      (screen_options stocks c o).2 = [] ∧
      (filter_diagnostics_services c
          (chainResults stocks o tks).flatten).map Prod.fst =
        ["volume", "premium", "delta"] ∧
      (filter_diagnostics_legacy c
          (chainResults stocks o tks).flatten).map Prod.fst =
        ["volume", "premium", "delta", "pe_ratio"] := by
  have hdf' : (chainResults stocks o tks).flatten.isEmpty = false := by
    cases hd : (chainResults stocks o tks).flatten.isEmpty with
    | false => rfl
    | true => exact absurd hd hdf
  rw [screen_options_filter_empty hmd h1 h2 hflt]
  refine ⟨?_, rfl, rfl, rfl⟩
  simp [hdf']

/-- C7 amended witness: the one-row no-volume table under the example
configuration drives the diagnostics path; the run returns the empty
table and the legacy diagnostics expose all four counts. -/
theorem C7_diagnostics_amended_witness :
    (screen_options ["XYZ"] exampleCriteria exampleOracle).2 = [] ∧
      (filter_diagnostics_legacy exampleCriteria
          (chainResults ["XYZ"] exampleOracle ["XYZ"]).flatten).map
          Prod.fst =
        ["volume", "premium", "delta", "pe_ratio"] :=
  ⟨(C7_diagnostics_amended ["XYZ"] exampleCriteria exampleOracle ["XYZ"] rfl
      (by decide) rfl (by decide) (by decide)).2.1,
   (C7_diagnostics_amended ["XYZ"] exampleCriteria exampleOracle ["XYZ"] rfl
      (by decide) rfl (by decide) (by decide)).2.2.2⟩

/-- C9: `screen_options` never propagates a collaborator exception: for
every configuration and oracle behaviour its result is a well-defined
table — the empty table or the sorted filtered table — and it is the
empty table whenever the metadata fetch raises, no chain produces rows,
the query call fails, or the filter eliminates every row. -/
theorem C9_screen_options_never_raises (stocks : List String)
    (c : ScreenerCriteria) (o : ScreenOracle) :
    ((screen_options stocks c o).2 = [] ∨
        ∃ tks, o.metadata = Except.ok tks ∧
          (screen_options stocks c o).2 =
            sort_values_pr_dte
              (queryFilter c (chainResults stocks o tks).flatten)) ∧
      (∀ e, o.metadata = Except.error e →
        (screen_options stocks c o).2 = []) ∧
      (∀ tks, o.metadata = Except.ok tks →
        (chainResults stocks o tks).isEmpty = true →
        (screen_options stocks c o).2 = []) ∧
      (o.queryOk = false → (screen_options stocks c o).2 = []) ∧
      (∀ tks, o.metadata = Except.ok tks →
        queryFilter c (chainResults stocks o tks).flatten = [] →
        (screen_options stocks c o).2 = []) := by
  refine ⟨?_, ?_, ?_, ?_, ?_⟩
  · cases hmd : o.metadata with
    | error e => exact Or.inl (by rw [screen_options_metadata_error e hmd])
    | ok tks =>
      by_cases h1 : (chainResults stocks o tks).isEmpty = true
      · exact Or.inl (by rw [screen_options_no_chains hmd h1])
      · cases h2 : o.queryOk with
        | false => exact Or.inl (by rw [screen_options_query_fails hmd h1 h2])
        | true =>
          by_cases h3 : (queryFilter c
              (chainResults stocks o tks).flatten).isEmpty = true
          · exact Or.inl (by rw [screen_options_filter_empty hmd h1 h2 h3])
          · exact Or.inr ⟨tks, rfl,
              by rw [screen_options_filter_nonempty hmd h1 h2 h3]⟩
  · intro e hmd
    rw [screen_options_metadata_error e hmd]
  · intro tks hmd h1
    rw [screen_options_no_chains hmd h1]
  · intro h2
    cases hmd : o.metadata with
    | error e => rw [screen_options_metadata_error e hmd]
    | ok tks =>
      by_cases h1 : (chainResults stocks o tks).isEmpty = true
      · rw [screen_options_no_chains hmd h1]
      · rw [screen_options_query_fails hmd h1 h2]
  · intro tks hmd hflt
    by_cases h1 : (chainResults stocks o tks).isEmpty = true
    · rw [screen_options_no_chains hmd h1]
    · cases h2 : o.queryOk with
      | false => rw [screen_options_query_fails hmd h1 h2]
      | true =>
        rw [screen_options_filter_empty hmd h1 h2 (by rw [hflt]; rfl)]

/-- C9 witness: when the metadata fetch raises, `screen_options` still
returns — the empty table. -/
theorem C9_screen_options_never_raises_witness :
    (screen_options ["XYZ"] exampleCriteria exampleErrOracle).2 = [] :=
  (C9_screen_options_never_raises ["XYZ"] exampleCriteria
    exampleErrOracle).2.1 () rfl

theorem mem_keys_of_mem_rawFiles {st : S3State} {k : Key}
    (hk : k ∈ rawFiles st) : k ∈ st.map Prod.fst := by
  unfold rawFiles list_objects_v2 at hk
  exact (List.mem_filter.1 (List.mem_filter.1 hk).1).1

theorem goodKey_of_mem_rawFiles {st : S3State} {k : Key}
    (hsec : ∀ q ∈ rawFiles st, occursIn rawPfx (q.drop rawPfx.length) = false)
    (hk : k ∈ rawFiles st) : goodKey k := by
  have h2 := hsec k hk
  unfold rawFiles list_objects_v2 at hk
  rw [List.mem_filter] at hk
  obtain ⟨hk1, hcond⟩ := hk
  rw [List.mem_filter] at hk1
  rw [Bool.and_eq_true] at hcond
  refine ⟨hk1.2, ?_, h2⟩
  have h3 := hcond.2
  cases h : occursIn archSeg k with
  | false => rfl
  | true => rw [h] at h3; exact absurd h3 (by simp)

theorem rawFiles_nodup {st : S3State} (hnd : (st.map Prod.fst).Nodup) :
    (rawFiles st).Nodup :=
  (hnd.filter _).filter _

/-- C8: for a well-formed bucket (unique keys, screener-shaped raw
keys) in which every copy succeeds, a listed non-empty raw snapshot all
of whose rows are expired relative to `now` is moved to the archive
namespace — its content reappears at
`raw_data/archive/<name>` and its raw key holds nothing — while its
rows still enter that run's scan output, and neither its old key nor
its archive key appears in a subsequent raw scan of the resulting
bucket; a snapshot with at least one non-expired row stays at its key
with its content unchanged. -/
theorem C8_archive_expired_snapshot (oracle : StorageOracle) (now : Int)
    (st : S3State) (k : Key) (v : List RawRow)
    (hok : ∀ q, oracle.copy_ok q = true)
    (hnd : (st.map Prod.fst).Nodup)
    (hsec : ∀ q ∈ rawFiles st, occursIn rawPfx (q.drop rawPfx.length) = false)
    (hk : k ∈ rawFiles st) (hv : get_object st k = some v) (hne : v ≠ []) :
    ((∀ r ∈ v, r.expiration_date < now) →
        (∀ r ∈ v, r ∈ (process_and_archive_raw_data oracle now st).1) ∧
          archiveKey k = archPfx ++ k.drop rawPfx.length ∧
          get_object (process_and_archive_raw_data oracle now st).2
              (archiveKey k) = some v ∧
          get_object (process_and_archive_raw_data oracle now st).2 k =
            none ∧
          k ∉ rawFiles (process_and_archive_raw_data oracle now st).2 ∧
          archiveKey k ∉
            rawFiles (process_and_archive_raw_data oracle now st).2) ∧
      ((∃ r ∈ v, now ≤ r.expiration_date) →
        get_object (process_and_archive_raw_data oracle now st).2 k =
          some v) := by
  have hgood : ∀ q ∈ rawFiles st, goodKey q :=
    fun q hq => goodKey_of_mem_rawFiles hsec hq
  have hfnd := rawFiles_nodup hnd
  have hokf : ∀ q ∈ rawFiles st, oracle.copy_ok q = true := fun q _ => hok q
  have hproc := foldFiles_processed oracle now (rawFiles st) st []
    hgood hfnd hokf k v hk hv
  constructor
  · intro hall
    have hdec : archiveDecision now v = true :=
      (archiveDecision_eq_true_iff now v).2 ((maxExpiry_lt_iff hne now).2 hall)
    have hmain := hproc.1 hdec
    refine ⟨?_, archiveKey_of_goodKey (hgood k hk), hmain.2, hmain.1, ?_, ?_⟩
    · intro r hr
      show r ∈ ((rawFiles st).foldl (processFileStep oracle now) ([], st)).1
      rw [foldFiles_out oracle now (rawFiles st) st [] hgood hfnd,
        List.nil_append]
      refine List.mem_flatMap.2 ⟨k, hk, ?_⟩
      rw [hv]
      exact hr
    · intro hmem
      exact notMem_keys_of_get_object_none hmain.1
        (mem_keys_of_mem_rawFiles hmem)
    · intro hmem
      unfold rawFiles at hmem
      rw [List.mem_filter, Bool.and_eq_true] at hmem
      have harch := occursIn_archSeg_archiveKey (hgood k hk)
      have h3 := hmem.2.2
      rw [harch] at h3
      exact absurd h3 (by simp)
  · rintro ⟨r, hr, hge⟩
    have hdec : archiveDecision now v = false := by
      cases hd : archiveDecision now v with
      | false => rfl
      | true =>
        have hlt := (maxExpiry_lt_iff hne now).1
          ((archiveDecision_eq_true_iff now v).1 hd) r hr
        omega
    exact hproc.2 hdec

/-- C8 witness: in the two-file example bucket at `now = 100`, the
fully expired snapshot `raw_data/2024-01-01.parquet` is archived (its
content is at the archive key, its raw key is gone, it is absent from a
re-scan) and the still-active `raw_data/2024-02-01.parquet` stays put. -/
theorem C8_archive_expired_snapshot_witness :
    get_object (process_and_archive_raw_data exampleStorageOracle 100
        exampleState).2 (archiveKey exampleKeyA) = some [⟨50⟩, ⟨60⟩] ∧
      get_object (process_and_archive_raw_data exampleStorageOracle 100
        exampleState).2 exampleKeyA = none ∧
      exampleKeyA ∉ rawFiles (process_and_archive_raw_data
        exampleStorageOracle 100 exampleState).2 ∧
      get_object (process_and_archive_raw_data exampleStorageOracle 100
        exampleState).2 exampleKeyB = some [⟨50⟩, ⟨150⟩] := by
  have hA := C8_archive_expired_snapshot exampleStorageOracle 100
    exampleState exampleKeyA [⟨50⟩, ⟨60⟩] (fun q => rfl) (by decide)
    (by decide) (by decide) (by decide) (by decide)
  have hB := C8_archive_expired_snapshot exampleStorageOracle 100
    exampleState exampleKeyB [⟨50⟩, ⟨150⟩] (fun q => rfl) (by decide)
    (by decide) (by decide) (by decide) (by decide)
  obtain ⟨_, _, h2, h3, h4, _⟩ := hA.1 (by decide)
  exact ⟨h2, h3, h4, hB.2 ⟨⟨150⟩, by decide, by decide⟩⟩

/-- C10: in `move_to_archive`, the delete of the original key is only
executed on the state produced by a completed copy; when the copy call
fails (raises), the caught exception leaves the bucket unchanged and
the original object still present under its raw key, so a failed
archival never loses a snapshot. -/
theorem C10_copy_before_delete (oracle : StorageOracle) (st : S3State)
    (key : Key) (v : List RawRow) (hv : get_object st key = some v) :
    (oracle.copy_ok key = false →
        move_to_archive oracle st key = st ∧
          get_object (move_to_archive oracle st key) key = some v) ∧
      (oracle.copy_ok key = true →
        move_to_archive oracle st key =
          delete_object (put_object st (archiveKey key) v) key) := by
  constructor
  · intro hfail
    have h1 : move_to_archive oracle st key = st := by
      simp [move_to_archive, hv, hfail]
    exact ⟨h1, by rw [h1]; exact hv⟩
  · intro hok
    simp [move_to_archive, hv, hok]

/-- C10 witness: with a failing copy, archiving the expired example
snapshot leaves the bucket unchanged and the snapshot still readable at
its raw key. -/
theorem C10_copy_before_delete_witness :
    move_to_archive exampleFailStorageOracle exampleState exampleKeyA =
        exampleState ∧
      get_object (move_to_archive exampleFailStorageOracle exampleState
        exampleKeyA) exampleKeyA = some [⟨50⟩, ⟨60⟩] :=
  (C10_copy_before_delete exampleFailStorageOracle exampleState exampleKeyA
    [⟨50⟩, ⟨60⟩] (by decide)).1 rfl
